import Mathlib

/-!
Verification of the consensus core of a BlockDAG node (GHOSTDAG ordering data,
block-status state machine, body-processing stage, append-only stores and
subnetwork identifiers) against its specification.

Block hashes are modelled as natural numbers (the source uses opaque 32-byte
digests whose ordering is the lexicographic byte order, i.e. the numeric order
of the digest value).  `BlueWorkType` (a wide unsigned integer) is modelled as
`Nat`.  Fallible operations return `Option`/`Except`; a `none` result models a
source-level panic or an unrecoverable store error, as noted per definition.
-/

/-! ## Block status (consensus/core/src/blockstatus.rs) -/

/-- BlockStatus enum, from consensus/core/src/blockstatus.rs. -/
inductive BlockStatus where
  | StatusInvalid
  | StatusUTXOValid
  | StatusUTXOPendingVerification
  | StatusDisqualifiedFromChain
  | StatusHeaderOnly
deriving DecidableEq

/-- BlockStatus::has_block_body, from consensus/core/src/blockstatus.rs:
matches UTXOValid, UTXOPendingVerification or DisqualifiedFromChain. -/
def BlockStatus.has_block_body : BlockStatus → Bool
  | .StatusUTXOValid => true
  | .StatusUTXOPendingVerification => true
  | .StatusDisqualifiedFromChain => true
  | _ => false

/-- BlockStatus::is_utxo_valid_or_pending, from consensus/core/src/blockstatus.rs. -/
def BlockStatus.is_utxo_valid_or_pending : BlockStatus → Bool
  | .StatusUTXOValid => true
  | .StatusUTXOPendingVerification => true
  | _ => false

/-! ## Subnetwork ids (consensus/core/src/subnets.rs) -/

/-- SUBNETWORK_ID_SIZE, from consensus/core/src/subnets.rs. -/
def SUBNETWORK_ID_SIZE : Nat := 20

/-- SubnetworkId: 20 bytes, from consensus/core/src/subnets.rs.  Bytes are
naturals below 256. -/
structure SubnetworkId where
  bytes : List Nat
deriving DecidableEq

/-- SubnetworkId::from_byte: a zeroed 20-byte array whose first byte is b. -/
def SubnetworkId.from_byte (b : Nat) : SubnetworkId :=
  ⟨b :: List.replicate (SUBNETWORK_ID_SIZE - 1) 0⟩

/-- SUBNETWORK_ID_NATIVE, from consensus/core/src/subnets.rs. -/
def SUBNETWORK_ID_NATIVE : SubnetworkId := SubnetworkId.from_byte 0

/-- SUBNETWORK_ID_COINBASE, from consensus/core/src/subnets.rs. -/
def SUBNETWORK_ID_COINBASE : SubnetworkId := SubnetworkId.from_byte 1

/-- SUBNETWORK_ID_REGISTRY, from consensus/core/src/subnets.rs. -/
def SUBNETWORK_ID_REGISTRY : SubnetworkId := SubnetworkId.from_byte 2

/-- Hex digit used by the Display implementation (lowercase, as produced by
faster_hex::hex_encode). -/
def hexDigit (n : Nat) : Char :=
  if n < 10 then Char.ofNat (48 + n) else Char.ofNat (87 + n)

/-- Value of one hex character as accepted by faster_hex::hex_decode
(digits, lowercase and uppercase letters). -/
def hexVal (c : Char) : Option Nat :=
  if 48 ≤ c.toNat ∧ c.toNat ≤ 57 then some (c.toNat - 48)
  else if 97 ≤ c.toNat ∧ c.toNat ≤ 102 then some (c.toNat - 87)
  else if 65 ≤ c.toNat ∧ c.toNat ≤ 70 then some (c.toNat - 55)
  else none

/-- Lowercase hex encoding of a byte list, high nibble first per byte
(faster_hex::hex_encode as used by Display for SubnetworkId). -/
def hexEncode : List Nat → List Char
  | [] => []
  | b :: t => hexDigit (b / 16) :: hexDigit (b % 16) :: hexEncode t

/-- Hex decoding of a character list into bytes, two characters per byte;
fails on an odd-length input or an invalid character
(faster_hex::hex_decode as used by FromStr for SubnetworkId). -/
def hexDecode : List Char → Option (List Nat)
  | [] => some []
  | [_] => none
  | c1 :: c2 :: t =>
    match hexVal c1, hexVal c2, hexDecode t with
    | some hi, some lo, some rest => some ((16 * hi + lo) :: rest)
    | _, _, _ => none

/-- Display for SubnetworkId, from consensus/core/src/subnets.rs: lowercase
hex of the 20 bytes. -/
def subnetwork_display (s : SubnetworkId) : List Char :=
  hexEncode s.bytes

/-- FromStr for SubnetworkId, from consensus/core/src/subnets.rs: hex-decode
into a 20-byte buffer; the input must hold exactly two characters per
output byte. -/
def subnetwork_from_str (cs : List Char) : Option SubnetworkId :=
  if cs.length = 2 * SUBNETWORK_ID_SIZE then (hexDecode cs).map SubnetworkId.mk
  else none

/-! ## Transactions and errors -/

/-- Modelled from the spec: the transaction shape used by
consensus_core::tx::Transaction::new (tx.rs is not part of the provided
sources).  Field order follows the constructor call in
pipeline/body_processor/processor.rs; inputs and outputs are irrelevant to
the claims and kept abstract as unit lists. -/
structure Transaction where
  version : Nat
  inputs : List Unit
  outputs : List Unit
  lock_time : Nat
  subnetwork_id : SubnetworkId
  gas : Nat
  payload : List Nat
deriving DecidableEq

/-- Modelled from the spec: constants::TX_VERSION (constants.rs is not part
of the provided sources); the claims do not depend on its value. -/
def TX_VERSION : Nat := 0

/-- Modelled from the spec (section 7): the RuleError taxonomy
(errors.rs is not part of the provided sources).  Only the constructors and
payload shapes named by the spec are carried. -/
inductive RuleError where
  | KnownInvalid
  | MissingParents (parents : List Nat)
  | BadMerkleRoot (expected got : Nat)
  | PrunedBlock
  | BadCoinbase
  | BadTransaction
  | BadBlockMass
  | BadTimestamp
  | BadPow
  | BadParents
deriving DecidableEq

/-! ## Body-stage state and processing (pipeline/body_processor/processor.rs) -/

/-- State touched by the body stage: the statuses store, the
block-transactions store and the body tips store. -/
structure BodyState where
  statuses : Nat → Option BlockStatus
  transactions : Nat → Option (List Transaction)
  tips : List Nat

/-- Point write into the statuses map.  Modelled from the spec: the statuses
store `set` (statuses.rs is not part of the provided sources) writes the
given status for the key; all writes performed by the body stage are valid
transitions of the section-3 state machine. -/
def setStatus (m : Nat → Option BlockStatus) (h : Nat) (s : BlockStatus) :
    Nat → Option BlockStatus :=
  fun x => if x = h then some s else m x

/-- Modelled from the spec: DbTipsStore::add_tip (tips.rs is not part of the
provided sources) adds the hash as a tip and removes any of its parents
that were tips. -/
def add_tip (tips : List Nat) (hash : Nat) (parents : List Nat) : List Nat :=
  hash :: tips.filter (fun t => ¬ t ∈ parents)

/-- commit_body, from pipeline/body_processor/processor.rs: in one atomic
batch, insert the transactions (append-only: fails if already present,
modelling the unwrap on KeyAlreadyExists as `none`), update body tips and
set the status to StatusUTXOPendingVerification. -/
def commit_body (st : BodyState) (hash : Nat) (parents : List Nat)
    (txs : List Transaction) : Option BodyState :=
  match st.transactions hash with
  | some _ => none
  | none =>
    some { statuses := setStatus st.statuses hash .StatusUTXOPendingVerification
           transactions := fun x => if x = hash then some txs else st.transactions x
           tips := add_tip st.tips hash parents }

/-- Error branch of process_block_body, from
pipeline/body_processor/processor.rs lines 164-180: true exactly for the
errors the negated matches! lets through, i.e. those that do NOT mark the
block invalid (BadMerkleRoot and MissingParents). -/
def keeps_status : RuleError → Bool
  | .BadMerkleRoot _ _ => true
  | .MissingParents _ => true
  | _ => false

/-- Validation-and-commit part of process_block_body (everything after the
status dispatch), from pipeline/body_processor/processor.rs lines 164-184.
The result of validate_body (whose in-isolation/in-context internals are
outside the provided sources) is taken as the `validation` input. -/
def handle_validation_result (st : BodyState) (hash : Nat) (parents : List Nat)
    (txs : List Transaction) (validation : Except RuleError Unit) :
    Option (BodyState × Except RuleError BlockStatus) :=
  match validation with
  | .error e =>
    if keeps_status e then some (st, .error e)
    else some ({ st with statuses := setStatus st.statuses hash .StatusInvalid }, .error e)
  | .ok _ =>
    (commit_body st hash parents txs).map
      (fun st2 => (st2, .ok .StatusUTXOPendingVerification))

/-- process_block_body, from pipeline/body_processor/processor.rs lines
155-184.  `none` models a panic: a missing status (the unwrap on the read)
or an unexpected status in the dispatch. -/
def process_block_body (st : BodyState) (hash : Nat) (parents : List Nat)
    (txs : List Transaction) (validation : Except RuleError Unit) :
    Option (BodyState × Except RuleError BlockStatus) :=
  match st.statuses hash with
  | none => none
  | some .StatusInvalid => some (st, .error .KnownInvalid)
  | some .StatusHeaderOnly => handle_validation_result st hash parents txs validation
  | some s => if s.has_block_body then some (st, .ok s) else none

/-- Genesis coinbase transaction, from pipeline/body_processor/processor.rs
lines 219-235 (devnet payload bytes verbatim). -/
def genesis_coinbase : Transaction :=
  { version := TX_VERSION
    inputs := []
    outputs := []
    lock_time := 0
    subnetwork_id := SUBNETWORK_ID_COINBASE
    gas := 0
    payload :=
      [0x00, 0x00, 0x00, 0x00, 0x00, 0x00, 0x00, 0x00,
       0x00, 0xE1, 0xF5, 0x05, 0x00, 0x00, 0x00, 0x00,
       0x00, 0x00,
       0x01,
       0x00,
       0x6b, 0x61, 0x73, 0x70, 0x61, 0x2d, 0x64, 0x65, 0x76, 0x6e, 0x65, 0x74] }

/-- process_genesis_if_needed, from pipeline/body_processor/processor.rs
lines 209-241: on StatusHeaderOnly, reset the body tips (init_batch with no
tips) and commit the synthesized coinbase; if genesis already has a body,
do nothing; any other stored status (or a missing one) panics (`none`). -/
def process_genesis_if_needed (st : BodyState) (genesis_hash : Nat) :
    Option BodyState :=
  match st.statuses genesis_hash with
  | some .StatusHeaderOnly =>
    commit_body { st with tips := [] } genesis_hash [] [genesis_coinbase]
  | some s => if s.has_block_body then some st else none
  | none => none

/-- ASCII bytes of the network tag kaspa-devnet. -/
def kaspa_devnet_ascii : List Nat :=
  [0x6b, 0x61, 0x73, 0x70, 0x61, 0x2d, 0x64, 0x65, 0x76, 0x6e, 0x65, 0x74]

/-- Little-endian byte encoding of `value` in exactly `width` bytes. -/
def le_bytes (width value : Nat) : List Nat :=
  (List.range width).map (fun i => value / 256 ^ i % 256)

/-- Spec-side definition (section 4.6), to be compared with the source bytes:
the coinbase payload layout is 8-byte blue score (LE), 8-byte subsidy (LE),
2-byte script version, a 1-byte varint script length, the script bytes,
then the ASCII network tag. -/
def coinbase_payload_layout (blue_score subsidy script_version : Nat)
    (script : List Nat) (network_tag : List Nat) : List Nat :=
  le_bytes 8 blue_score ++ le_bytes 8 subsidy ++ le_bytes 2 script_version ++
    [script.length] ++ script ++ network_tag

/-! ## Ghostdag data (model/stores/ghostdag.rs) -/

/-- GhostdagData, from model/stores/ghostdag.rs.  `blues_anticone_sizes` is
the hash-to-KType map (KType is u8 in the source; counters stay at or below
K ≤ 255, and the embedding uses Nat). -/
structure GhostdagData where
  blue_score : Nat
  blue_work : Nat
  selected_parent : Nat
  mergeset_blues : List Nat
  mergeset_reds : List Nat
  blues_anticone_sizes : Nat → Option Nat

/-- CompactGhostdagData, from model/stores/ghostdag.rs. -/
structure CompactGhostdagData where
  blue_score : Nat
  blue_work : Nat
  selected_parent : Nat
deriving DecidableEq

/-- Point insert into a hash-keyed map (HashMap::insert: overwrites any
existing entry for the key). -/
def mapInsert (m : Nat → Option Nat) (k : Nat) (v : Nat) : Nat → Option Nat :=
  fun x => if x = k then some v else m x

/-- GhostdagData::new_with_selected_parent, from model/stores/ghostdag.rs:
mergeset_blues starts as the selected parent alone and the anticone-size
map holds the selected parent with counter 0.  The capacity hint k has no
semantic content. -/
def GhostdagData.new_with_selected_parent (selected_parent : Nat) (k : Nat) :
    GhostdagData :=
  { blue_score := 0
    blue_work := 0
    selected_parent := selected_parent
    mergeset_blues := [selected_parent]
    mergeset_reds := []
    blues_anticone_sizes := mapInsert (fun _ => none) selected_parent 0 }

/-- GhostdagData::add_blue, from model/stores/ghostdag.rs lines 151-165:
push the block onto mergeset_blues, insert it into blues_anticone_sizes
with its own blue anticone size, then for each entry (blue, size) of the
affected map insert blue with size + 1.  The affected map is carried as the
list of its (key, value) pairs in iteration order. -/
def GhostdagData.add_blue (data : GhostdagData) (block : Nat)
    (blue_anticone_size : Nat) (block_blues_anticone_sizes : List (Nat × Nat)) :
    GhostdagData :=
  { data with
    mergeset_blues := data.mergeset_blues ++ [block]
    blues_anticone_sizes :=
      block_blues_anticone_sizes.foldl
        (fun acc p => mapInsert acc p.1 (p.2 + 1))
        (mapInsert data.blues_anticone_sizes block blue_anticone_size) }

/-- GhostdagData::add_red, from model/stores/ghostdag.rs. -/
def GhostdagData.add_red (data : GhostdagData) (block : Nat) : GhostdagData :=
  { data with mergeset_reds := data.mergeset_reds ++ [block] }

/-- GhostdagData::to_compact, from model/stores/ghostdag.rs. -/
def GhostdagData.to_compact (data : GhostdagData) : CompactGhostdagData :=
  { blue_score := data.blue_score
    blue_work := data.blue_work
    selected_parent := data.selected_parent }

/-! ## Mergeset ordering (model/stores/ghostdag.rs and the spec comparator) -/

/-- SortableBlock: a block hash paired with its blue work.  Modelled from the
spec (section 4.2): processes/ghostdag/ordering.rs is not part of the
provided sources. -/
structure SortableBlock where
  hash : Nat
  blue_work : Nat
deriving DecidableEq

/-- Modelled from the spec (section 4.2): the SortableBlock comparator is
lexicographic on (blue_work, hash); distinct blocks never compare equal. -/
def SortableBlock.cmp (a b : SortableBlock) : Ordering :=
  (compare a.blue_work b.blue_work).then (compare a.hash b.hash)

/-- Strict comparator order on SortableBlock. -/
def sblt (a b : SortableBlock) : Prop := SortableBlock.cmp a b = .lt

instance : DecidableRel sblt :=
  fun a b => inferInstanceAs (Decidable (SortableBlock.cmp a b = Ordering.lt))

/-- Read the blue work of each hash from the store and pair it with the hash
(the map over `store.get_blue_work(h).unwrap()`); `none` models the panic
on a missing entry. -/
def lookupWorks (store : Nat → Option Nat) : List Nat → Option (List SortableBlock)
  | [] => some []
  | h :: t =>
    match store h, lookupWorks store t with
    | some w, some rest => some ({ hash := h, blue_work := w } :: rest)
    | _, _ => none

/-- Fuel-indexed core of itertools merge_join_by followed by the
Left/Right/Both map of model/stores/ghostdag.rs: emit the smaller head per
the comparator, and panic (`none`) when two elements compare equal
("distinct blocks are never equal").  The fuel only bounds recursion depth;
`mergeJoinNoEq` always supplies enough. -/
def mergeJoinFuel (f : SortableBlock → SortableBlock → Ordering) :
    Nat → List SortableBlock → List SortableBlock → Option (List SortableBlock)
  | _, [], ys => some ys
  | _, x :: xs, [] => some (x :: xs)
  | 0, _ :: _, _ :: _ => none
  | fuel + 1, x :: xs, y :: ys =>
    match f x y with
    | .lt => (mergeJoinFuel f fuel xs (y :: ys)).map (fun l => x :: l)
    | .gt => (mergeJoinFuel f fuel (x :: xs) ys).map (fun l => y :: l)
    | .eq => none

/-- merge_join_by with the panic-on-equal map, from
model/stores/ghostdag.rs. -/
def mergeJoinNoEq (f : SortableBlock → SortableBlock → Ordering)
    (xs ys : List SortableBlock) : Option (List SortableBlock) :=
  mergeJoinFuel f (xs.length + ys.length) xs ys

/-- GhostdagData::ascending_mergeset_without_selected_parent, from
model/stores/ghostdag.rs lines 68-88: merge the blues (skipping index 0,
the selected parent) with the reds under the (blue_work, hash) comparator. -/
def ascending_mergeset_without_selected_parent (data : GhostdagData)
    (store : Nat → Option Nat) : Option (List SortableBlock) :=
  match lookupWorks store (data.mergeset_blues.drop 1),
        lookupWorks store data.mergeset_reds with
  | some bl, some rl => mergeJoinNoEq (fun a b => SortableBlock.cmp a b) bl rl
  | _, _ => none

/-- GhostdagData::descending_mergeset_without_selected_parent, from
model/stores/ghostdag.rs lines 91-113: both stored sequences reversed,
merged under the reversed comparator. -/
def descending_mergeset_without_selected_parent (data : GhostdagData)
    (store : Nat → Option Nat) : Option (List SortableBlock) :=
  match lookupWorks store (data.mergeset_blues.drop 1).reverse,
        lookupWorks store data.mergeset_reds.reverse with
  | some bl, some rl => mergeJoinNoEq (fun a b => SortableBlock.cmp b a) bl rl
  | _, _ => none

/-- GhostdagData::consensus_ordered_mergeset, from model/stores/ghostdag.rs
lines 127-132: the selected parent followed by the ascending mergeset. -/
def consensus_ordered_mergeset (data : GhostdagData)
    (store : Nat → Option Nat) : Option (List Nat) :=
  (ascending_mergeset_without_selected_parent data store).map
    (fun l => data.selected_parent :: l.map SortableBlock.hash)

/-! ## Stores (model/stores/ghostdag.rs and model/stores/depth.rs) -/

/-- StoreError, from model/stores/errors.rs as used by the provided sources
(key payloads dropped). -/
inductive StoreError where
  | KeyAlreadyExists
  | KeyNotFound
deriving DecidableEq

/-- DbGhostdagStore: the full-record column and the compact-projection
column.  The CachedDbAccess point read/write/has primitives (database
module, not part of the provided sources) are modelled from the spec
(section 6) as map lookup and map update. -/
structure DbGhostdagStore where
  access : Nat → Option GhostdagData
  compact_access : Nat → Option CompactGhostdagData

/-- DbGhostdagStore::insert, from model/stores/ghostdag.rs lines 279-295:
probe the full column and fail with KeyAlreadyExists if present; write the
full record; probe the compact column likewise; write the compact record
built from blue_score, blue_work and selected_parent. -/
def DbGhostdagStore.insert (s : DbGhostdagStore) (hash : Nat)
    (data : GhostdagData) : DbGhostdagStore × Option StoreError :=
  if (s.access hash).isSome then (s, some .KeyAlreadyExists)
  else
    let s1 : DbGhostdagStore :=
      { s with access := fun x => if x = hash then some data else s.access x }
    if (s1.compact_access hash).isSome then (s1, some .KeyAlreadyExists)
    else
      let cd : CompactGhostdagData :=
        { blue_score := data.blue_score, blue_work := data.blue_work,
          selected_parent := data.selected_parent }
      ({ s1 with compact_access := fun x =>
          if x = hash then some cd else s1.compact_access x }, none)

/-- DbGhostdagStore::get_data, from model/stores/ghostdag.rs (read of the
full column; `none` is the KeyNotFound error). -/
def DbGhostdagStore.get_data (s : DbGhostdagStore) (hash : Nat) :
    Option GhostdagData :=
  s.access hash

/-- DbGhostdagStore::get_compact_data, from model/stores/ghostdag.rs (read
of the compact column). -/
def DbGhostdagStore.get_compact_data (s : DbGhostdagStore) (hash : Nat) :
    Option CompactGhostdagData :=
  s.compact_access hash

/-- The two columns of a DbGhostdagStore agree: the compact column is
exactly the to_compact projection of the full column. -/
def DbGhostdagStore.consistent (s : DbGhostdagStore) : Prop :=
  ∀ h, s.compact_access h = (s.access h).map GhostdagData.to_compact

/-- MemoryGhostdagStore, from model/stores/ghostdag.rs lines 300-320: six
per-field maps. -/
structure MemoryGhostdagStore where
  blue_score_map : Nat → Option Nat
  blue_work_map : Nat → Option Nat
  selected_parent_map : Nat → Option Nat
  mergeset_blues_map : Nat → Option (List Nat)
  mergeset_reds_map : Nat → Option (List Nat)
  blues_anticone_sizes_map : Nat → Option (Nat → Option Nat)

/-- MemoryGhostdagStore::has, from model/stores/ghostdag.rs: presence in the
blue-score map. -/
def MemoryGhostdagStore.has (s : MemoryGhostdagStore) (hash : Nat) : Bool :=
  (s.blue_score_map hash).isSome

/-- MemoryGhostdagStore::insert, from model/stores/ghostdag.rs lines
328-341: fail with KeyAlreadyExists when present, else write every field
map. -/
def MemoryGhostdagStore.insert (s : MemoryGhostdagStore) (hash : Nat)
    (data : GhostdagData) : MemoryGhostdagStore × Option StoreError :=
  if s.has hash then (s, some .KeyAlreadyExists)
  else
    ({ blue_score_map := fun x => if x = hash then some data.blue_score else s.blue_score_map x
       blue_work_map := fun x => if x = hash then some data.blue_work else s.blue_work_map x
       selected_parent_map := fun x => if x = hash then some data.selected_parent else s.selected_parent_map x
       mergeset_blues_map := fun x => if x = hash then some data.mergeset_blues else s.mergeset_blues_map x
       mergeset_reds_map := fun x => if x = hash then some data.mergeset_reds else s.mergeset_reds_map x
       blues_anticone_sizes_map := fun x => if x = hash then some data.blues_anticone_sizes else s.blues_anticone_sizes_map x },
     none)

/-- MemoryGhostdagStore::get_data, from model/stores/ghostdag.rs lines
386-398: KeyNotFound when absent, else the record is reassembled from the
six maps (a per-field miss under a present blue score would be an indexing
panic, also `none` here). -/
def MemoryGhostdagStore.get_data (s : MemoryGhostdagStore) (hash : Nat) :
    Option GhostdagData :=
  match s.blue_score_map hash, s.blue_work_map hash, s.selected_parent_map hash,
        s.mergeset_blues_map hash, s.mergeset_reds_map hash,
        s.blues_anticone_sizes_map hash with
  | some bs, some bw, some sp, some mb, some mr, some bas =>
    some { blue_score := bs, blue_work := bw, selected_parent := sp,
           mergeset_blues := mb, mergeset_reds := mr, blues_anticone_sizes := bas }
  | _, _, _, _, _, _ => none

/-- MemoryGhostdagStore::get_compact_data, from model/stores/ghostdag.rs
lines 404-406: to_compact of get_data. -/
def MemoryGhostdagStore.get_compact_data (s : MemoryGhostdagStore) (hash : Nat) :
    Option CompactGhostdagData :=
  (s.get_data hash).map GhostdagData.to_compact

/-- BlockDepthInfo, from model/stores/depth.rs. -/
structure BlockDepthInfo where
  merge_depth_root : Nat
  finality_point : Nat
deriving DecidableEq

/-- DbDepthStore, from model/stores/depth.rs (CachedDbAccess modelled from
the spec as for DbGhostdagStore). -/
structure DbDepthStore where
  access : Nat → Option BlockDepthInfo

/-- DbDepthStore::insert, from model/stores/depth.rs lines 72-80: fail with
KeyAlreadyExists when present, else write the record. -/
def DbDepthStore.insert (s : DbDepthStore) (hash : Nat)
    (merge_depth_root finality_point : Nat) : DbDepthStore × Option StoreError :=
  if (s.access hash).isSome then (s, some .KeyAlreadyExists)
  else
    let di : BlockDepthInfo :=
      { merge_depth_root := merge_depth_root, finality_point := finality_point }
    ({ access := fun x => if x = hash then some di else s.access x }, none)

/-! ## Concrete scenario inputs (test of model/stores/ghostdag.rs, spec S2) -/

/-- Blue-work store of scenario S2: blues 1, 2, 3 at works 2, 7, 11 and reds
4, 5, 6 at works 4, 9, 11 (hash 6 ties hash 3 on work). -/
def scenario_store : Nat → Option Nat :=
  fun h =>
    if h = 1 then some 2 else if h = 2 then some 7 else if h = 3 then some 11
    else if h = 4 then some 4 else if h = 5 then some 9
    else if h = 6 then some 11 else none

/-- GhostdagData of scenario S2: selected parent 1, blues 2 and 3, reds 4, 5
and 6, built exactly as the source test builds it. -/
def scenario_data : GhostdagData :=
  ((((((GhostdagData.new_with_selected_parent 1 5).add_blue 2 0 []).add_blue
      3 0 []).add_red 4).add_red 5).add_red 6)

/-- Body state with one block (hash 2) whose status is StatusUTXOValid. -/
def bodyStateValid : BodyState :=
  { statuses := fun h => if h = 2 then some .StatusUTXOValid else none
    transactions := fun _ => none
    tips := [2] }

/-- Body state with one block (hash 7) whose status is StatusHeaderOnly and
no stored body. -/
def bodyStateHeaderOnly : BodyState :=
  { statuses := fun h => if h = 7 then some .StatusHeaderOnly else none
    transactions := fun _ => none
    tips := [] }

/-- Body state whose genesis (hash 9) is StatusHeaderOnly with no stored
body. -/
def bodyStateGenesis : BodyState :=
  { statuses := fun h => if h = 9 then some .StatusHeaderOnly else none
    transactions := fun _ => none
    tips := [5] }

/-- Sample full ghostdag record used as concrete store content. -/
def gdSample : GhostdagData :=
  { blue_score := 1
    blue_work := 2
    selected_parent := 3
    mergeset_blues := [3]
    mergeset_reds := []
    blues_anticone_sizes := fun _ => none }

/-- Db ghostdag store already holding hash 4 in both columns. -/
def dbStoreOne : DbGhostdagStore :=
  { access := fun h => if h = 4 then some gdSample else none
    compact_access := fun h => if h = 4 then some gdSample.to_compact else none }

/-- Empty in-memory ghostdag store. -/
def memStoreEmpty : MemoryGhostdagStore :=
  { blue_score_map := fun _ => none
    blue_work_map := fun _ => none
    selected_parent_map := fun _ => none
    mergeset_blues_map := fun _ => none
    mergeset_reds_map := fun _ => none
    blues_anticone_sizes_map := fun _ => none }

/-- Depth store already holding hash 4. -/
def depthStoreOne : DbDepthStore :=
  { access := fun h => if h = 4 then some ⟨1, 2⟩ else none }

/-- Ghostdag record whose anticone-size map holds hash 5 with counter 1. -/
def gdWitnessData : GhostdagData :=
  { blue_score := 0
    blue_work := 0
    selected_parent := 0
    mergeset_blues := [0]
    mergeset_reds := []
    blues_anticone_sizes := fun h => if h = 5 then some 1 else none }

/-! # Theorems -/

/-- C6: has_block_body returns true exactly on StatusUTXOPendingVerification,
StatusUTXOValid and StatusDisqualifiedFromChain. -/
theorem c6_has_block_body_iff :
    ∀ s : BlockStatus,
      s.has_block_body = true ↔
        (s = .StatusUTXOPendingVerification ∨ s = .StatusUTXOValid ∨
         s = .StatusDisqualifiedFromChain) := by
  intro s; cases s <;> simp [BlockStatus.has_block_body]

/-- C2: process_block_body dispatches on the stored status: Invalid yields
the KnownInvalid error with no state change; a status that already has a
block body is returned as-is, independently of any validation outcome;
StatusHeaderOnly proceeds to the validation step; and every BlockStatus is
one of those three shapes, so the panic arm of the dispatch is
unreachable. -/
theorem c2_status_dispatch (st : BodyState) (hash : Nat) (parents : List Nat)
    (txs : List Transaction) (v : Except RuleError Unit) (status : BlockStatus)
    (hst : st.statuses hash = some status) :
    (status = .StatusInvalid →
      process_block_body st hash parents txs v = some (st, .error .KnownInvalid)) ∧
    (status.has_block_body = true →
      process_block_body st hash parents txs v = some (st, .ok status)) ∧
    (status = .StatusHeaderOnly →
      process_block_body st hash parents txs v =
        handle_validation_result st hash parents txs v) ∧
    (∀ s : BlockStatus,
      s = .StatusInvalid ∨ s = .StatusHeaderOnly ∨ s.has_block_body = true) := by
  refine ⟨?_, ?_, ?_, ?_⟩
  · intro h; subst h; simp [process_block_body, hst]
  · intro h
    cases status <;> simp_all [process_block_body, BlockStatus.has_block_body, hst]
  · intro h; subst h; simp [process_block_body, hst]
  · intro s; cases s <;> simp [BlockStatus.has_block_body]

/-- Witness for C2: a block stored as StatusUTXOValid is returned as-is by
the body stage. -/
theorem c2_status_dispatch_witness :
    process_block_body bodyStateValid 2 [] [] (.ok ()) =
      some (bodyStateValid, .ok .StatusUTXOValid) :=
  (c2_status_dispatch bodyStateValid 2 [] [] (.ok ()) .StatusUTXOValid rfl).2.1 rfl

/-- C1 (failing input): a HeaderOnly block whose body validation fails with
PrunedBlock is marked StatusInvalid by the code (the matches! guard only
spares BadMerkleRoot and MissingParents), although the claim and the
comment in the source say the status should stay unchanged. -/
theorem c1_pruned_block_marked_invalid :
    (process_block_body bodyStateHeaderOnly 7 [] [] (.error .PrunedBlock)).map
        (fun p => p.2) = some (.error .PrunedBlock) ∧
    (process_block_body bodyStateHeaderOnly 7 [] [] (.error .PrunedBlock)).map
        (fun p => p.1.statuses 7) = some (some .StatusInvalid) :=
  ⟨rfl, rfl⟩

/-- C5: inserting at a hash that already has a stored record fails with
KeyAlreadyExists and leaves the store unchanged; inserting at a fresh hash
succeeds, for the Db ghostdag store, the in-memory ghostdag store and the
depth store. -/
theorem c5_insert_append_only (gs : DbGhostdagStore) (ms : MemoryGhostdagStore)
    (ds : DbDepthStore) (hash : Nat) (data : GhostdagData) (mdr fp : Nat) :
    ((gs.access hash).isSome = true →
      gs.insert hash data = (gs, some .KeyAlreadyExists)) ∧
    (gs.access hash = none → gs.compact_access hash = none →
      (gs.insert hash data).2 = none ∧
      (gs.insert hash data).1.access hash = some data) ∧
    (ms.has hash = true → ms.insert hash data = (ms, some .KeyAlreadyExists)) ∧
    (ms.has hash = false →
      (ms.insert hash data).2 = none ∧
      (ms.insert hash data).1.blue_score_map hash = some data.blue_score) ∧
    ((ds.access hash).isSome = true →
      ds.insert hash mdr fp = (ds, some .KeyAlreadyExists)) ∧
    (ds.access hash = none →
      (ds.insert hash mdr fp).2 = none ∧
      (ds.insert hash mdr fp).1.access hash = some ⟨mdr, fp⟩) := by
  refine ⟨?_, ?_, ?_, ?_, ?_, ?_⟩
  · intro h; simp [DbGhostdagStore.insert, h]
  · intro h1 h2
    constructor <;> simp [DbGhostdagStore.insert, h1, h2]
  · intro h; simp [MemoryGhostdagStore.insert, h]
  · intro h
    constructor <;> simp [MemoryGhostdagStore.insert, h]
  · intro h; simp [DbDepthStore.insert, h]
  · intro h
    constructor <;> simp [DbDepthStore.insert, h]

/-- Witness for C5: inserting hash 4 into stores already holding it fails
with KeyAlreadyExists and leaves them unchanged; inserting into an empty
in-memory store succeeds. -/
theorem c5_insert_append_only_witness :
    dbStoreOne.insert 4 gdSample = (dbStoreOne, some .KeyAlreadyExists) ∧
    (memStoreEmpty.insert 4 gdSample).2 = none ∧
    depthStoreOne.insert 4 1 2 = (depthStoreOne, some .KeyAlreadyExists) :=
  ⟨(c5_insert_append_only dbStoreOne memStoreEmpty depthStoreOne 4 gdSample 1 2).1 rfl,
   ((c5_insert_append_only dbStoreOne memStoreEmpty depthStoreOne 4 gdSample 1 2).2.2.2.1 rfl).1,
   (c5_insert_append_only dbStoreOne memStoreEmpty depthStoreOne 4 gdSample 1 2).2.2.2.2.1 rfl⟩

/-- C9: when the two columns of a Db ghostdag store agree, get_compact_data
returns exactly to_compact of the get_data record; insert writes both
columns together, preserving that agreement; and the in-memory store's
get_compact_data is to_compact of get_data by construction. -/
theorem c9_compact_projection (s : DbGhostdagStore) (hash : Nat)
    (data : GhostdagData) :
    (s.consistent → ∀ h d, s.get_data h = some d →
      s.get_compact_data h = some d.to_compact) ∧
    (s.consistent → (s.insert hash data).1.consistent) ∧
    (∀ (m : MemoryGhostdagStore) (h : Nat),
      m.get_compact_data h = (m.get_data h).map GhostdagData.to_compact) := by
  refine ⟨?_, ?_, ?_⟩
  · intro hc h d hd
    unfold DbGhostdagStore.get_compact_data
    rw [hc h]
    unfold DbGhostdagStore.get_data at hd
    rw [hd]
    rfl
  · intro hc
    by_cases h1 : (s.access hash).isSome
    · simp only [DbGhostdagStore.insert, h1, if_true]
      exact hc
    · have h1n : s.access hash = none := Option.not_isSome_iff_eq_none.mp h1
      have h2 : s.compact_access hash = none := by rw [hc hash, h1n]; rfl
      intro x
      simp only [DbGhostdagStore.insert, h1n, h2]
      by_cases hx : x = hash <;>
        simp [hx, GhostdagData.to_compact, hc x]
  · intro m h; rfl

/-- Witness for C9: inserting into an agreeing store keeps the two columns
agreeing, and reading back the compact record gives the projection. -/
theorem c9_compact_projection_witness :
    (dbStoreOne.insert 9 gdSample).1.consistent ∧
    dbStoreOne.get_compact_data 4 = some (GhostdagData.to_compact gdSample) := by
  have hc : dbStoreOne.consistent := by
    intro h
    by_cases hx : h = 4 <;> simp [dbStoreOne, hx]
  exact ⟨(c9_compact_projection dbStoreOne 9 gdSample).2.1 hc,
         (c9_compact_projection dbStoreOne 9 gdSample).1 hc 4 gdSample rfl⟩

/-- Folding the counter bumps over entries whose keys avoid x leaves the map
unchanged at x. -/
theorem foldl_bump_notmem (l : List (Nat × Nat)) (m : Nat → Option Nat) (x : Nat)
    (hx : ∀ p ∈ l, p.1 ≠ x) :
    l.foldl (fun acc p => mapInsert acc p.1 (p.2 + 1)) m x = m x := by
  induction l generalizing m with
  | nil => rfl
  | cons q t ih =>
    have hq : q.1 ≠ x := hx q (List.mem_cons_self q t)
    rw [List.foldl_cons, ih _ (fun p hp => hx p (List.mem_cons_of_mem q hp))]
    simp [mapInsert, Ne.symm hq]

/-- Folding the counter bumps over entries with pairwise-distinct keys sets
each listed key to its listed value plus one. -/
theorem foldl_bump_mem (l : List (Nat × Nat)) (m : Nat → Option Nat)
    (hnd : (l.map Prod.fst).Nodup) (p : Nat × Nat) (hp : p ∈ l) :
    l.foldl (fun acc q => mapInsert acc q.1 (q.2 + 1)) m p.1 = some (p.2 + 1) := by
  induction l generalizing m with
  | nil => cases hp
  | cons q t ih =>
    rw [List.map_cons] at hnd
    have hhead := (List.nodup_cons.mp hnd).1
    have htail := (List.nodup_cons.mp hnd).2
    rw [List.foldl_cons]
    rcases List.mem_cons.mp hp with h | h
    · subst h
      have hnot : ∀ r ∈ t, r.1 ≠ p.1 := by
        intro r hr he
        exact hhead (he ▸ List.mem_map_of_mem Prod.fst hr)
      rw [foldl_bump_notmem t _ p.1 hnot]
      simp [mapInsert]
    · exact ih _ htail h

/-- C8: add_blue appends the block to mergeset_blues, inserts it into
blues_anticone_sizes with its own anticone size, bumps each affected
blue's counter from its previous value to that value plus one, and leaves
every other entry (and mergeset_reds) unchanged. -/
theorem c8_add_blue (data : GhostdagData) (block : Nat) (sz : Nat)
    (affected : List (Nat × Nat))
    (hnd : (affected.map Prod.fst).Nodup)
    (hnb : ∀ p ∈ affected, p.1 ≠ block)
    (hprev : ∀ p ∈ affected, data.blues_anticone_sizes p.1 = some p.2) :
    (data.add_blue block sz affected).mergeset_blues =
      data.mergeset_blues ++ [block] ∧
    (data.add_blue block sz affected).blues_anticone_sizes block = some sz ∧
    (∀ p ∈ affected,
      (data.add_blue block sz affected).blues_anticone_sizes p.1 = some (p.2 + 1)) ∧
    (∀ h, h ≠ block → (∀ p ∈ affected, p.1 ≠ h) →
      (data.add_blue block sz affected).blues_anticone_sizes h =
        data.blues_anticone_sizes h) ∧
    (data.add_blue block sz affected).mergeset_reds = data.mergeset_reds := by
  refine ⟨rfl, ?_, ?_, ?_, rfl⟩
  · simp only [GhostdagData.add_blue]
    rw [foldl_bump_notmem _ _ _ hnb]
    simp [mapInsert]
  · intro p hp
    simp only [GhostdagData.add_blue]
    exact foldl_bump_mem _ _ hnd p hp
  · intro h hb hnotin
    simp only [GhostdagData.add_blue]
    rw [foldl_bump_notmem _ _ _ hnotin]
    simp [mapInsert, hb]

/-- Witness for C8: adding blue block 9 with anticone size 0 and affected
map [(5, 1)] bumps the counter of 5 to 2 and records 9 with 0. -/
theorem c8_add_blue_witness :
    (gdWitnessData.add_blue 9 0 [(5, 1)]).blues_anticone_sizes 5 = some 2 ∧
    (gdWitnessData.add_blue 9 0 [(5, 1)]).blues_anticone_sizes 9 = some 0 :=
  have h := c8_add_blue gdWitnessData 9 0 [(5, 1)] (by decide) (by decide) (by decide)
  ⟨h.2.2.1 (5, 1) (by decide), h.2.1⟩

/-- C7: when genesis is stored as StatusHeaderOnly (with no stored body),
process_genesis_if_needed commits exactly the synthesized coinbase
transaction and sets the genesis status to StatusUTXOPendingVerification;
when genesis already has a body it does nothing; and the committed payload
bytes are exactly the spec layout: 8-byte blue score 0 (LE), 8-byte subsidy
100000000 (LE), 2-byte script version 0, a 1-byte varint length, the
one-byte script 0x00 (OP-FALSE), then the ASCII tag kaspa-devnet. -/
theorem c7_genesis_coinbase (st : BodyState) (g : Nat) :
    (st.statuses g = some .StatusHeaderOnly → st.transactions g = none →
      ∃ st2, process_genesis_if_needed st g = some st2 ∧
        st2.transactions g = some [genesis_coinbase] ∧
        st2.statuses g = some .StatusUTXOPendingVerification) ∧
    (∀ s, st.statuses g = some s → s.has_block_body = true →
      process_genesis_if_needed st g = some st) ∧
    genesis_coinbase.payload =
      coinbase_payload_layout 0 100000000 0 [0x00] kaspa_devnet_ascii := by
  refine ⟨?_, ?_, by decide⟩
  · intro h1 h2
    simp only [process_genesis_if_needed, h1, commit_body, h2]
    refine ⟨_, rfl, ?_, ?_⟩ <;> simp [setStatus]
  · intro s hs hb
    cases s <;>
      simp_all [process_genesis_if_needed, BlockStatus.has_block_body]

/-- Witness for C7: on a HeaderOnly genesis (hash 9), the body stage commits
the synthesized coinbase and marks genesis StatusUTXOPendingVerification. -/
theorem c7_genesis_coinbase_witness :
    (process_genesis_if_needed bodyStateGenesis 9).map
        (fun s2 => (s2.transactions 9, s2.statuses 9)) =
      some (some [genesis_coinbase], some .StatusUTXOPendingVerification) := by
  obtain ⟨st2, he, ht, hs⟩ := (c7_genesis_coinbase bodyStateGenesis 9).1 rfl rfl
  rw [he]
  simp [ht, hs]

/-- Each hex digit decodes back to its value. -/
theorem hexVal_hexDigit : ∀ n < 16, hexVal (hexDigit n) = some n := by decide

/-- Hex encoding doubles the length. -/
theorem hexEncode_length (bs : List Nat) : (hexEncode bs).length = 2 * bs.length := by
  induction bs with
  | nil => rfl
  | cons b t ih => simp [hexEncode, ih]; omega

/-- Hex decoding inverts hex encoding on byte lists. -/
theorem hexDecode_hexEncode (bs : List Nat) (hb : ∀ b ∈ bs, b < 256) :
    hexDecode (hexEncode bs) = some bs := by
  induction bs with
  | nil => rfl
  | cons b t ih =>
    have hblt : b < 256 := hb b (List.mem_cons_self b t)
    have h1 : hexVal (hexDigit (b / 16)) = some (b / 16) :=
      hexVal_hexDigit _ (by omega)
    have h2 : hexVal (hexDigit (b % 16)) = some (b % 16) :=
      hexVal_hexDigit _ (by omega)
    have ih2 := ih (fun x hx => hb x (List.mem_cons_of_mem b hx))
    simp [hexEncode, hexDecode, h1, h2, ih2]
    omega

/-- C10: FromStr on the Display output of a SubnetworkId returns the same
SubnetworkId: the lowercase-hex Display and the hex FromStr are a
round-trip. -/
theorem c10_display_fromstr_roundtrip (s : SubnetworkId)
    (hlen : s.bytes.length = SUBNETWORK_ID_SIZE)
    (hb : ∀ b ∈ s.bytes, b < 256) :
    subnetwork_from_str (subnetwork_display s) = some s := by
  unfold subnetwork_from_str subnetwork_display
  rw [hexEncode_length, hlen, if_pos rfl, hexDecode_hexEncode s.bytes hb]
  rfl

/-- Witness for C10: the coinbase subnetwork id round-trips through Display
and FromStr. -/
theorem c10_display_fromstr_roundtrip_witness :
    subnetwork_from_str (subnetwork_display SUBNETWORK_ID_COINBASE) =
      some SUBNETWORK_ID_COINBASE :=
  c10_display_fromstr_roundtrip SUBNETWORK_ID_COINBASE (by decide) (by decide)

/-- Characterization of the comparator: strictly below means smaller blue
work, or equal blue work and smaller hash. -/
theorem sortable_cmp_lt_iff {a b : SortableBlock} :
    a.cmp b = .lt ↔
      a.blue_work < b.blue_work ∨ (a.blue_work = b.blue_work ∧ a.hash < b.hash) := by
  unfold SortableBlock.cmp
  cases hw : compare a.blue_work b.blue_work with
  | lt =>
    rw [Nat.compare_eq_lt] at hw
    simp [Ordering.then, hw]
  | eq =>
    rw [Nat.compare_eq_eq] at hw
    simp [Ordering.then, Nat.compare_eq_lt, hw]
  | gt =>
    rw [Nat.compare_eq_gt] at hw
    simp [Ordering.then]
    omega

/-- The comparator returns eq exactly on equal blocks: distinct blocks never
compare equal. -/
theorem sortable_cmp_eq_iff {a b : SortableBlock} : a.cmp b = .eq ↔ a = b := by
  obtain ⟨ah, aw⟩ := a
  obtain ⟨bh, bw⟩ := b
  unfold SortableBlock.cmp
  cases hw : compare aw bw with
  | lt =>
    rw [Nat.compare_eq_lt] at hw
    simp [Ordering.then, SortableBlock.mk.injEq]
    omega
  | eq =>
    rw [Nat.compare_eq_eq] at hw
    simp [Ordering.then, Nat.compare_eq_eq, SortableBlock.mk.injEq, hw]
  | gt =>
    rw [Nat.compare_eq_gt] at hw
    simp [Ordering.then, SortableBlock.mk.injEq]
    omega

/-- The comparator is antisymmetric between gt and lt. -/
theorem sortable_cmp_gt_iff {a b : SortableBlock} : a.cmp b = .gt ↔ b.cmp a = .lt := by
  rw [sortable_cmp_lt_iff]
  unfold SortableBlock.cmp
  cases hw : compare a.blue_work b.blue_work with
  | lt =>
    rw [Nat.compare_eq_lt] at hw
    simp [Ordering.then]
    omega
  | eq =>
    rw [Nat.compare_eq_eq] at hw
    simp [Ordering.then, Nat.compare_eq_gt, hw]
  | gt =>
    rw [Nat.compare_eq_gt] at hw
    simp [Ordering.then]
    omega

/-- The strict comparator order is transitive. -/
theorem sblt_trans {a b c : SortableBlock} (h1 : sblt a b) (h2 : sblt b c) :
    sblt a c := by
  unfold sblt at *
  rw [sortable_cmp_lt_iff] at *
  omega

/-- The strict comparator order is asymmetric. -/
theorem sblt_asymm {a b : SortableBlock} (h1 : sblt a b) (h2 : sblt b a) : False := by
  unfold sblt at h1 h2
  rw [sortable_cmp_lt_iff] at h1 h2
  omega

/-- Strictly sorted permutations are equal. -/
theorem sorted_perm_eq {l1 l2 : List SortableBlock} (hp : l1.Perm l2)
    (h1 : l1.Pairwise sblt) (h2 : l2.Pairwise sblt) : l1 = l2 := by
  haveI : IsAntisymm SortableBlock sblt :=
    ⟨fun a b hab hba => (sblt_asymm hab hba).elim⟩
  exact List.eq_of_perm_of_sorted hp h1 h2

/-- When both inputs are strictly sorted by the comparator and no cross pair
compares equal, the merge succeeds, returns a permutation of the inputs and
is itself strictly sorted. -/
theorem mergeJoinFuel_sound (f : SortableBlock → SortableBlock → Ordering)
    (hgt : ∀ a b, f a b = .gt ↔ f b a = .lt)
    (htr : ∀ a b c, f a b = .lt → f b c = .lt → f a c = .lt) :
    ∀ (fuel : Nat) (xs ys : List SortableBlock),
      xs.length + ys.length ≤ fuel →
      xs.Pairwise (fun a b => f a b = .lt) →
      ys.Pairwise (fun a b => f a b = .lt) →
      (∀ x ∈ xs, ∀ y ∈ ys, f x y ≠ .eq) →
      ∃ zs, mergeJoinFuel f fuel xs ys = some zs ∧
        zs.Perm (xs ++ ys) ∧ zs.Pairwise (fun a b => f a b = .lt) := by
  intro fuel
  induction fuel with
  | zero =>
    intro xs ys hlen hxs hys hcross
    cases xs with
    | nil => exact ⟨ys, rfl, by simp, hys⟩
    | cons x xs =>
      cases ys with
      | nil => exact ⟨x :: xs, rfl, by simp, hxs⟩
      | cons y ys => simp at hlen
  | succ n ih =>
    intro xs ys hlen hxs hys hcross
    cases xs with
    | nil => exact ⟨ys, rfl, by simp, hys⟩
    | cons x xs =>
      cases ys with
      | nil => exact ⟨x :: xs, rfl, by simp, hxs⟩
      | cons y ys =>
        have hxall := (List.pairwise_cons.mp hxs).1
        have hyall := (List.pairwise_cons.mp hys).1
        cases hfy : f x y with
        | lt =>
          obtain ⟨zs, hz1, hz2, hz3⟩ :=
            ih xs (y :: ys) (by simp only [List.length_cons] at hlen ⊢; omega)
              (List.pairwise_cons.mp hxs).2 hys
              (fun u hu v hv => hcross u (List.mem_cons_of_mem x hu) v hv)
          refine ⟨x :: zs, ?_, ?_, ?_⟩
          · simp [mergeJoinFuel, hfy, hz1]
          · exact hz2.cons x
          · rw [List.pairwise_cons]
            refine ⟨?_, hz3⟩
            intro z hz
            rcases List.mem_append.mp (hz2.mem_iff.mp hz) with hzx | hzy
            · exact hxall z hzx
            · rcases List.mem_cons.mp hzy with rfl | hzy'
              · exact hfy
              · exact htr x y z hfy (hyall z hzy')
        | gt =>
          have hyx : f y x = .lt := (hgt x y).mp hfy
          obtain ⟨zs, hz1, hz2, hz3⟩ :=
            ih (x :: xs) ys (by simp only [List.length_cons] at hlen ⊢; omega)
              hxs (List.pairwise_cons.mp hys).2
              (fun u hu v hv => hcross u hu v (List.mem_cons_of_mem y hv))
          refine ⟨y :: zs, ?_, ?_, ?_⟩
          · simp [mergeJoinFuel, hfy, hz1]
          · exact (hz2.cons y).trans List.perm_middle.symm
          · rw [List.pairwise_cons]
            refine ⟨?_, hz3⟩
            intro z hz
            rcases List.mem_append.mp (hz2.mem_iff.mp hz) with hzx | hzy
            · rcases List.mem_cons.mp hzx with rfl | hzx'
              · exact hyx
              · exact htr y x z hyx (hxall z hzx')
            · exact hyall z hzy
        | eq =>
          exact absurd hfy (hcross x (List.mem_cons_self x xs) y (List.mem_cons_self y ys))

/-- When the two strictly sorted inputs share an element, the merge reaches
the panic arm: the shared element eventually heads both lists and compares
equal. -/
theorem mergeJoinFuel_shared_none (f : SortableBlock → SortableBlock → Ordering)
    (heq : ∀ a b, f a b = .eq ↔ a = b)
    (hgt : ∀ a b, f a b = .gt ↔ f b a = .lt) :
    ∀ (fuel : Nat) (xs ys : List SortableBlock) (z : SortableBlock),
      xs.Pairwise (fun a b => f a b = .lt) →
      ys.Pairwise (fun a b => f a b = .lt) →
      z ∈ xs → z ∈ ys →
      mergeJoinFuel f fuel xs ys = none := by
  intro fuel
  induction fuel with
  | zero =>
    intro xs ys z hxs hys hzx hzy
    cases xs with
    | nil => cases hzx
    | cons x xs =>
      cases ys with
      | nil => cases hzy
      | cons y ys => rfl
  | succ n ih =>
    intro xs ys z hxs hys hzx hzy
    cases xs with
    | nil => cases hzx
    | cons x xs =>
      cases ys with
      | nil => cases hzy
      | cons y ys =>
        have hxall := (List.pairwise_cons.mp hxs).1
        have hyall := (List.pairwise_cons.mp hys).1
        cases hfy : f x y with
        | eq => simp [mergeJoinFuel, hfy]
        | lt =>
          have hz' : z ∈ xs := by
            rcases List.mem_cons.mp hzx with rfl | h
            · rcases List.mem_cons.mp hzy with h1 | h2
              · exact absurd ((heq z y).mpr h1) (by simp [hfy])
              · have h3 := hyall z h2
                have h4 : f z y = .gt := (hgt z y).mpr h3
                rw [hfy] at h4
                cases h4
            · exact h
          have hres := ih xs (y :: ys) z (List.pairwise_cons.mp hxs).2 hys hz' hzy
          simp [mergeJoinFuel, hfy, hres]
        | gt =>
          have hz' : z ∈ ys := by
            rcases List.mem_cons.mp hzy with rfl | h
            · rcases List.mem_cons.mp hzx with h1 | h2
              · exact absurd ((heq x z).mpr h1.symm) (by simp [hfy])
              · have h3 := hxall z h2
                rw [h3] at hfy
                cases hfy
            · exact h
          have hres := ih (x :: xs) ys z hxs (List.pairwise_cons.mp hys).2 hzx hz'
          simp [mergeJoinFuel, hfy, hres]

/-- Looking up works distributes over list append. -/
theorem lookupWorks_append (store : Nat → Option Nat) (l1 l2 : List Nat)
    (r1 r2 : List SortableBlock) (h1 : lookupWorks store l1 = some r1)
    (h2 : lookupWorks store l2 = some r2) :
    lookupWorks store (l1 ++ l2) = some (r1 ++ r2) := by
  induction l1 generalizing r1 with
  | nil =>
    simp only [lookupWorks, Option.some.injEq] at h1
    subst h1
    simpa using h2
  | cons a t ih =>
    cases hs : store a with
    | none => simp [lookupWorks, hs] at h1
    | some w =>
      cases hr : lookupWorks store t with
      | none => simp [lookupWorks, hs, hr] at h1
      | some rest =>
        simp only [lookupWorks, hs, hr, Option.some.injEq] at h1
        subst h1
        rw [List.cons_append]
        have ih2 := ih rest hr
        simp [lookupWorks, hs, ih2]

/-- Looking up works commutes with list reversal. -/
theorem lookupWorks_reverse (store : Nat → Option Nat) (l : List Nat)
    (r : List SortableBlock) (h : lookupWorks store l = some r) :
    lookupWorks store l.reverse = some r.reverse := by
  induction l generalizing r with
  | nil =>
    simp only [lookupWorks, Option.some.injEq] at h
    subst h
    rfl
  | cons a t ih =>
    cases hs : store a with
    | none => simp [lookupWorks, hs] at h
    | some w =>
      cases hr : lookupWorks store t with
      | none => simp [lookupWorks, hs, hr] at h
      | some rest =>
        simp only [lookupWorks, hs, hr, Option.some.injEq] at h
        subst h
        rw [List.reverse_cons, List.reverse_cons]
        exact lookupWorks_append store t.reverse [a] rest.reverse [⟨a, w⟩]
          (ih rest hr) (by simp [lookupWorks, hs])

/-- C3: when the stored blues (after index 0) and reds are each strictly
ascending under the (blue_work, hash) comparator and every block has a
blue-work entry, the descending mergeset iterator is the exact reverse of
the ascending one. -/
theorem c3_descending_is_reverse_of_ascending (data : GhostdagData)
    (store : Nat → Option Nat) (bl rl : List SortableBlock)
    (hbl : lookupWorks store (data.mergeset_blues.drop 1) = some bl)
    (hrl : lookupWorks store data.mergeset_reds = some rl)
    (hsb : bl.Pairwise sblt) (hsr : rl.Pairwise sblt) :
    descending_mergeset_without_selected_parent data store =
      (ascending_mergeset_without_selected_parent data store).map List.reverse := by
  have hbl' := lookupWorks_reverse store _ bl hbl
  have hrl' := lookupWorks_reverse store _ rl hrl
  simp only [ascending_mergeset_without_selected_parent,
    descending_mergeset_without_selected_parent, hbl, hrl, hbl', hrl']
  by_cases hshare : ∃ z, z ∈ bl ∧ z ∈ rl
  · obtain ⟨z, hz1, hz2⟩ := hshare
    have hna : mergeJoinNoEq (fun a b => SortableBlock.cmp a b) bl rl = none :=
      mergeJoinFuel_shared_none _ (fun a b => sortable_cmp_eq_iff)
        (fun a b => sortable_cmp_gt_iff) _ bl rl z hsb hsr hz1 hz2
    have hnd : mergeJoinNoEq (fun a b => SortableBlock.cmp b a)
        bl.reverse rl.reverse = none :=
      mergeJoinFuel_shared_none _ (fun a b => sortable_cmp_eq_iff.trans eq_comm)
        (fun a b => sortable_cmp_gt_iff) _ bl.reverse rl.reverse z
        (List.pairwise_reverse.mpr hsb) (List.pairwise_reverse.mpr hsr)
        (List.mem_reverse.mpr hz1) (List.mem_reverse.mpr hz2)
    rw [hna, hnd]
    rfl
  · push_neg at hshare
    have hcross : ∀ x ∈ bl, ∀ y ∈ rl, SortableBlock.cmp x y ≠ .eq := by
      intro x hx y hy he
      exact hshare x hx ((sortable_cmp_eq_iff.mp he).symm ▸ hy)
    obtain ⟨zs, hz1, hz2, hz3⟩ :=
      mergeJoinFuel_sound (fun a b => SortableBlock.cmp a b)
        (fun a b => sortable_cmp_gt_iff)
        (fun a b c h1 h2 => sblt_trans h1 h2) (bl.length + rl.length) bl rl
        le_rfl hsb hsr hcross
    obtain ⟨ws, hw1, hw2, hw3⟩ :=
      mergeJoinFuel_sound (fun a b => SortableBlock.cmp b a)
        (fun a b => sortable_cmp_gt_iff)
        (fun a b c h1 h2 => sblt_trans h2 h1)
        (bl.reverse.length + rl.reverse.length) bl.reverse rl.reverse
        le_rfl (List.pairwise_reverse.mpr hsb) (List.pairwise_reverse.mpr hsr)
        (fun x hx y hy he =>
          hshare y ((sortable_cmp_eq_iff.mp he) ▸ List.mem_reverse.mp hx)
            (List.mem_reverse.mp hy))
    have hwrev : ws.reverse = zs := by
      apply sorted_perm_eq
      · have hrevperm : (bl.reverse ++ rl.reverse).Perm (bl ++ rl) :=
          (List.reverse_perm bl).append (List.reverse_perm rl)
        exact ((ws.reverse_perm.trans hw2).trans hrevperm).trans hz2.symm
      · exact List.pairwise_reverse.mpr hw3
      · exact hz3
    rw [show mergeJoinNoEq (fun a b => SortableBlock.cmp a b) bl rl = some zs from hz1,
      show mergeJoinNoEq (fun a b => SortableBlock.cmp b a) bl.reverse rl.reverse =
        some ws from hw1]
    rw [← hwrev]
    simp

/-- Witness for C3: on scenario S2 the descending mergeset is the reverse of
the ascending one. -/
theorem c3_descending_is_reverse_of_ascending_witness :
    descending_mergeset_without_selected_parent scenario_data scenario_store =
      (ascending_mergeset_without_selected_parent scenario_data scenario_store).map
        List.reverse :=
  c3_descending_is_reverse_of_ascending scenario_data scenario_store
    [⟨2, 7⟩, ⟨3, 11⟩] [⟨4, 4⟩, ⟨5, 9⟩, ⟨6, 11⟩]
    (by decide) (by decide) (by decide) (by decide)

/-- C4: the (blue_work, hash) comparator never equates distinct blocks, and
on scenario S2 (blues at works 2, 7, 11; reds at works 4, 9, 11; the tied
red hash 6 above the tied blue hash 3) the ascending mergeset is
[R1, B2, R2, B3, R3] and the consensus order is the selected parent
followed by that sequence. -/
theorem c4_ascending_merge_scenario :
    (∀ a b : SortableBlock, SortableBlock.cmp a b = .eq ↔ a = b) ∧
    ascending_mergeset_without_selected_parent scenario_data scenario_store =
      some [⟨4, 4⟩, ⟨2, 7⟩, ⟨5, 9⟩, ⟨3, 11⟩, ⟨6, 11⟩] ∧
    consensus_ordered_mergeset scenario_data scenario_store =
      some [1, 4, 2, 5, 3, 6] :=
  ⟨fun a b => sortable_cmp_eq_iff, by decide, by decide⟩
